import Mathlib

/-!
Shallow embedding of the Modern-Blog server core: the credential verifier
(`src/server/middleware/auth.js`), the authorization checks and the post and
comment route handlers (`src/server/routes/posts.js`,
`src/server/routes/comments.js`), together with the Mongoose field validators
of `src/server/models/Post.js` and `src/server/models/Comment.js`.

The document store is modelled as a plain list of records; the JWT library is
an external collaborator and enters as an abstract verification function
`String → Option Nat` (`none` models `jwt.verify` throwing on a bad signature
or expiry). Mongoose behaviours that the handlers depend on are embedded
explicitly: `findByIdAndUpdate` with `runValidators` validates only the paths
present in the update (undefined fields are stripped), `$inc` is an atomic
increment issued to the store, and string schema paths with `trim: true` are
trimmed before validation and storage.
-/

set_option maxRecDepth 8192

namespace ModernBlog

/-- HTTP error envelope: status code, message, and the optional list of
per-field validation messages (the `errors` array of the JSON response). -/
structure ErrResponse where
  status : Nat
  message : String
  errors : List String
deriving Repr, DecidableEq

/-- A stored user record (`User` model): the persisted document includes the
hashed password credential. -/
structure UserRec where
  id : Nat
  username : String
  role : String
  password : String
deriving Repr, DecidableEq

/-- The user object the `auth` middleware attaches to the request
(`User.findById(decoded.id).select('-password')`): identity, username and
role, with no password field. -/
structure AuthedUser where
  id : Nat
  username : String
  role : String
deriving Repr, DecidableEq

/-- A stored post document (`Post` model, `src/server/models/Post.js`):
title, body, owning author (user id), tags, category, view counter,
creation timestamp. -/
structure PostRec where
  id : Nat
  title : String
  body : String
  author : Nat
  tags : List String
  category : String
  views : Nat
  createdAt : Nat
deriving Repr, DecidableEq

/-- A stored comment document (`Comment` model,
`src/server/models/Comment.js`). -/
structure CommentRec where
  id : Nat
  postID : Nat
  userID : Nat
  comment : String
deriving Repr, DecidableEq

/-- JavaScript `String.prototype.trim` (also the Mongoose `trim: true`
setter): strip leading and trailing whitespace. Embedded structurally over
the character list so that concrete instances evaluate. -/
def trimStr (s : String) : String :=
  ⟨((s.data.dropWhile Char.isWhitespace).reverse.dropWhile
      Char.isWhitespace).reverse⟩

/-! ## Credential verifier (`src/server/middleware/auth.js`, `auth`) -/

/-- The `auth` middleware, lines 4-34 of `src/server/middleware/auth.js`.
`verify` abstracts `jwt.verify` (returning the decoded user id, or `none`
when the library throws on a bad signature or expiry); `users` is the user
collection; `token` is the bearer token extracted from the Authorization
header (`none` when absent). On success the attached user has no password
field (`select('-password')`). -/
def authMiddleware (verify : String → Option Nat) (users : List UserRec)
    (token : Option String) : Except ErrResponse AuthedUser :=
  match token with
  | none => .error ⟨401, "No token provided, authorization denied", []⟩
  | some t =>
    match verify t with
    | none => .error ⟨401, "Token is not valid", []⟩
    | some uid =>
      match users.find? (fun u => u.id == uid) with
      | none => .error ⟨401, "Token is not valid", []⟩
      | some u => .ok ⟨u.id, u.username, u.role⟩

/-! ## Authorization policy

`canAuthor` and `canModify` are the spec's named predicates (spec section
4.2), written from the spec's words; the route guards below are translated
from the code, and the claim theorems connect the two. -/

/-- Modelled from the spec: `canAuthor(role)` is true iff role is Admin or
Editor. -/
def canAuthor (role : String) : Bool :=
  role == "Admin" || role == "Editor"

/-- Modelled from the spec: `canModify(actorIdentity, actorRole,
resourceOwnerIdentity)` is true iff actorRole is Admin, or actorIdentity
equals resourceOwnerIdentity. -/
def canModify (actorIdentity : Nat) (actorRole : String)
    (resourceOwnerIdentity : Nat) : Bool :=
  actorRole == "Admin" || actorIdentity == resourceOwnerIdentity

/-- The `editorAuth` middleware guard, lines 46-54 of
`src/server/middleware/auth.js`: deny with 403 unless the role is Admin or
Editor. -/
def editorAuthCheck (actor : AuthedUser) : Except ErrResponse Unit :=
  if actor.role ≠ "Admin" ∧ actor.role ≠ "Editor" then
    .error ⟨403, "Editor or Admin access required", []⟩
  else .ok ()

/-- The inline ownership guard shared by the post and comment update/delete
handlers (`posts.js` lines 161, 210; `comments.js` lines 133, 172):
deny when the resource owner differs from the caller and the caller is not
Admin. -/
def ownershipDenied (ownerId : Nat) (actor : AuthedUser) : Bool :=
  ownerId != actor.id && actor.role != "Admin"

/-! ## Mongoose field validators (`src/server/models/Post.js`,
`src/server/models/Comment.js`)

Mongoose applies the `trim: true` setter before validating, reports at most
one `ValidatorError` per path (required is checked before length bounds),
and on update operations with `runValidators` validates only the paths
present in the update document. -/

/-- Allowed values of the `category` enum path of the post schema. -/
def categoryEnum : List String :=
  ["General", "Technology", "Development", "Design", "Business", "Lifestyle"]

/-- Validator messages for the `title` path given its (already trimmed)
value: required, then maxlength 200. -/
def titleFieldErrors (t : String) : List String :=
  if t = "" then ["Title is required"]
  else if 200 < t.length then ["Title cannot exceed 200 characters"]
  else []

/-- Validator messages for the `body` path: required, then minlength 10. -/
def bodyFieldErrors (b : String) : List String :=
  if b = "" then ["Body content is required"]
  else if b.length < 10 then ["Body must be at least 10 characters long"]
  else []

/-- Validator messages for the tag element paths (`tags.0`, `tags.1`, ...):
each element is trimmed, then checked against maxlength 50. -/
def tagsFieldErrors (tags : List String) : List String :=
  (tags.filter (fun t => 50 < (trimStr t).length)).map
    (fun _ => "Tag cannot exceed 50 characters")

/-- Validator message for the `category` enum path. -/
def categoryFieldErrors (c : String) : List String :=
  if categoryEnum.contains c then []
  else ["`" ++ c ++ "` is not a valid enum value for path `category`."]

/-- Full-document validation run by `post.save()` on creation: `none` for
title or body models the field being absent from the request body
(`undefined` fails `required`). -/
def postCreateErrors (title body : Option String) (tags : List String)
    (category : String) : List String :=
  titleFieldErrors (trimStr (title.getD "")) ++ bodyFieldErrors (body.getD "")
    ++ tagsFieldErrors tags ++ categoryFieldErrors category

/-- The update document of `PUT /api/posts/:id`: each field is present or
absent (Mongoose strips `undefined` keys from the update, so an absent field
is neither written nor validated). -/
structure UpdateBody where
  title : Option String
  body : Option String
  tags : Option (List String)
  category : Option String
deriving Repr

/-- Update-path validation run by `findByIdAndUpdate(..., { runValidators:
true })`: only the paths present in the update document are validated. -/
def postUpdateErrors (u : UpdateBody) : List String :=
  (match u.title with
   | none => []
   | some t => titleFieldErrors (trimStr t))
  ++ (match u.body with
      | none => []
      | some b => bodyFieldErrors b)
  ++ (match u.tags with
      | none => []
      | some ts => tagsFieldErrors ts)
  ++ (match u.category with
      | none => []
      | some c => categoryFieldErrors c)

/-! ## Store operations

The single-post fetch issues its view-count side effect to the store as a
Mongo update operator. The only operator the handler code uses is
`{ $inc: { views: 1 } }` (posts.js line 84); `setViews` embeds the
alternative a read-then-write implementation would issue, so that the
operation actually issued is distinguishable in the model. -/

/-- A write operation issued against the post store. -/
inductive StoreOp where
  /-- Mongo `{ $inc: { views: n } }` on the post with the given id: a single
  atomic increment executed by the store. -/
  | incViews (pid : Nat) (n : Nat)
  /-- Mongo `{ views: n }` (plain overwrite), as a read-then-write
  implementation would issue. Unused by the embedded handlers. -/
  | setViews (pid : Nat) (n : Nat)
deriving Repr, DecidableEq

/-- Execute one store operation. -/
def applyOp (posts : List PostRec) : StoreOp → List PostRec
  | .incViews pid n =>
    posts.map (fun p => if p.id == pid then { p with views := p.views + n } else p)
  | .setViews pid n =>
    posts.map (fun p => if p.id == pid then { p with views := n } else p)

/-- Execute a sequence of store operations in order. -/
def applyOps (posts : List PostRec) (ops : List StoreOp) : List PostRec :=
  ops.foldl applyOp posts

/-- The view counter of the post with the given id, if stored. -/
def viewsOf (posts : List PostRec) (pid : Nat) : Option Nat :=
  (posts.find? (fun p => p.id == pid)).map (fun p => p.views)

/-! ## Post route handlers (`src/server/routes/posts.js`) -/

/-- Pagination metadata of the list response (posts.js lines 53-59). -/
structure Pagination where
  currentPage : Nat
  totalPages : Nat
  totalPosts : Nat
  hasNextPage : Bool
  hasPrevPage : Bool
deriving Repr, DecidableEq

/-- Query parameters of `GET /api/posts` after defaulting (`page = 1`,
`limit = 10`); an absent filter parameter is `none`. The sort parameters are
passed to the store and do not affect the pagination metadata, so they are
not carried here. -/
structure ListQuery where
  page : Nat
  limit : Nat
  category : Option String
  tag : Option String
  search : Option String
deriving Repr

/-- The filter built by the list handler (posts.js lines 21-33): category
equality when the parameter is present, non-empty and not the sentinel
`all`; tag membership when present and non-empty; free-text search delegated
to the store's text index, abstracted by `textMatch`. An empty string
parameter is falsy in the source and builds no filter. -/
def matchesQuery (textMatch : String → PostRec → Bool) (q : ListQuery)
    (p : PostRec) : Bool :=
  (match q.category with
   | none => true
   | some c => if c = "" ∨ c = "all" then true else p.category == c)
  && (match q.tag with
      | none => true
      | some t => if t = "" then true else p.tags.contains t)
  && (match q.search with
      | none => true
      | some s => if s = "" then true else textMatch s p)

/-- JavaScript `Math.ceil(total / limit)` on natural operands with
`limit > 0`. -/
def ceilDiv (a b : Nat) : Nat := (a + b - 1) / b

/-- `GET /api/posts` (posts.js lines 8-68): filter, paginate with
`skip((page-1)*limit)` and `limit`, and compute the pagination metadata. The
store's sort is order-preserving bookkeeping external to the claims and is
not modelled. -/
def listPosts (textMatch : String → PostRec → Bool) (posts : List PostRec)
    (q : ListQuery) : List PostRec × Pagination :=
  let matched := posts.filter (matchesQuery textMatch q)
  let total := matched.length
  let totalPages := ceilDiv total q.limit
  ((matched.drop ((q.page - 1) * q.limit)).take q.limit,
   ⟨q.page, totalPages, total, decide (q.page < totalPages),
    decide (1 < q.page)⟩)

/-- The store operations issued by a single-post fetch: on success, exactly
one atomic `$inc` of `views` by 1 (posts.js line 84); nothing otherwise. -/
def getPostOps (posts : List PostRec) (pid : Nat) : List StoreOp :=
  match posts.find? (fun p => p.id == pid) with
  | none => []
  | some _ => [.incViews pid 1]

/-- `GET /api/posts/:id` (posts.js lines 71-105): fetch the post, 404 when
absent; on success issue the view-count increment to the store and respond
with the document as fetched (before the increment). Returns the response
and the post store after the issued operations. -/
def getPost (posts : List PostRec) (pid : Nat) :
    Except ErrResponse PostRec × List PostRec :=
  match posts.find? (fun p => p.id == pid) with
  | none => (.error ⟨404, "Post not found", []⟩, posts)
  | some p => (.ok p, applyOps posts (getPostOps posts pid))

/-- `category || 'General'` in the create handler (posts.js line 117): an
absent or empty-string category defaults to General. -/
def resolvedCategory (category : Option String) : String :=
  match category with
  | none => "General"
  | some c => if c = "" then "General" else c

/-- The post-creation handler body (posts.js lines 108-145), entered after
`auth` and `editorAuth`. `newId` is the fresh document id generated by the
store and `now` the creation timestamp. Trimmed string paths are stored
trimmed; `tags || []` defaults absent tags to the empty list; `views`
defaults to 0. Validation failure responds 400 with every field message. -/
def createPostHandler (posts : List PostRec) (actor : AuthedUser)
    (newId now : Nat) (title body : Option String)
    (tags : Option (List String)) (category : Option String) :
    Except ErrResponse PostRec × List PostRec :=
  let tags0 := tags.getD []
  let cat := resolvedCategory category
  let errs := postCreateErrors title body tags0 cat
  if errs = [] then
    let p : PostRec :=
      ⟨newId, trimStr (title.getD ""), body.getD "", actor.id,
       tags0.map trimStr, cat, 0, now⟩
    (.ok p, posts ++ [p])
  else (.error ⟨400, "Validation error", errs⟩, posts)

/-- `POST /api/posts`: the `editorAuth` gate followed by the creation
handler. -/
def createPost (posts : List PostRec) (actor : AuthedUser) (newId now : Nat)
    (title body : Option String) (tags : Option (List String))
    (category : Option String) : Except ErrResponse PostRec × List PostRec :=
  match editorAuthCheck actor with
  | .error e => (.error e, posts)
  | .ok _ => createPostHandler posts actor newId now title body tags category

/-- Apply an update document to a stored post: each present field replaces
the stored value (trimmed paths trimmed); absent fields, and the `author`,
`views`, `createdAt` and `id` fields, are untouched. -/
def applyUpdate (p : PostRec) (u : UpdateBody) : PostRec :=
  { p with
    title := match u.title with | none => p.title | some t => trimStr t
    body := match u.body with | none => p.body | some b => b
    tags := match u.tags with | none => p.tags | some ts => ts.map trimStr
    category := match u.category with | none => p.category | some c => c }

/-- The post-update handler body (posts.js lines 148-196), entered after
`auth` and `editorAuth`: 404 when the post is absent, 403 when the caller is
neither the author nor Admin, then `findByIdAndUpdate` with
`runValidators`, responding 400 with every violated field message on
validation failure. -/
def updatePostHandler (posts : List PostRec) (actor : AuthedUser) (pid : Nat)
    (u : UpdateBody) : Except ErrResponse PostRec × List PostRec :=
  match posts.find? (fun p => p.id == pid) with
  | none => (.error ⟨404, "Post not found", []⟩, posts)
  | some p =>
    if ownershipDenied p.author actor then
      (.error ⟨403, "Not authorized to update this post", []⟩, posts)
    else
      let errs := postUpdateErrors u
      if errs = [] then
        let p2 := applyUpdate p u
        (.ok p2, posts.map (fun q => if q.id == pid then p2 else q))
      else (.error ⟨400, "Validation error", errs⟩, posts)

/-- `PUT /api/posts/:id`: the `editorAuth` gate followed by the update
handler. -/
def updatePost (posts : List PostRec) (actor : AuthedUser) (pid : Nat)
    (u : UpdateBody) : Except ErrResponse PostRec × List PostRec :=
  match editorAuthCheck actor with
  | .error e => (.error e, posts)
  | .ok _ => updatePostHandler posts actor pid u

/-- The post-deletion handler body (posts.js lines 199-230), entered after
`auth` and `editorAuth`: 404 when absent, 403 when the caller is neither the
author nor Admin, otherwise remove the document. -/
def deletePostHandler (posts : List PostRec) (actor : AuthedUser) (pid : Nat) :
    Except ErrResponse Unit × List PostRec :=
  match posts.find? (fun p => p.id == pid) with
  | none => (.error ⟨404, "Post not found", []⟩, posts)
  | some p =>
    if ownershipDenied p.author actor then
      (.error ⟨403, "Not authorized to delete this post", []⟩, posts)
    else
      (.ok (), posts.filter (fun q => ¬ q.id == pid))

/-- `DELETE /api/posts/:id`: the `editorAuth` gate followed by the deletion
handler. -/
def deletePost (posts : List PostRec) (actor : AuthedUser) (pid : Nat) :
    Except ErrResponse Unit × List PostRec :=
  match editorAuthCheck actor with
  | .error e => (.error e, posts)
  | .ok _ => deletePostHandler posts actor pid

/-! ## Comment route handlers (`src/server/routes/comments.js`) -/

/-- Validator messages for the comment body path given its (already
trimmed) value: required, minlength 1 (subsumed by required on a trimmed
string), maxlength 1000. -/
def commentFieldErrors (c : String) : List String :=
  if c = "" then ["Comment content is required"]
  else if 1000 < c.length then ["Comment cannot exceed 1000 characters"]
  else []

/-- `POST /api/comments` (comments.js lines 58-110), entered after `auth`:
400 when either input is missing or the comment is the empty string (both
falsy in the source); 404 when the referenced post does not exist; otherwise
store the comment with its body trimmed. Returns the response and the
comment store. -/
def createComment (posts : List PostRec) (comments : List CommentRec)
    (actor : AuthedUser) (newId : Nat) (postID : Option Nat)
    (comment : Option String) : Except ErrResponse CommentRec × List CommentRec :=
  match postID, comment with
  | some pid, some c =>
    if c = "" then
      (.error ⟨400, "Post ID and comment content are required", []⟩, comments)
    else
      match posts.find? (fun p => p.id == pid) with
      | none => (.error ⟨404, "Post not found", []⟩, comments)
      | some _ =>
        let errs := commentFieldErrors (trimStr c)
        if errs = [] then
          let nc : CommentRec := ⟨newId, pid, actor.id, trimStr c⟩
          (.ok nc, comments ++ [nc])
        else (.error ⟨400, "Validation error", errs⟩, comments)
  | _, _ =>
    (.error ⟨400, "Post ID and comment content are required", []⟩, comments)

/-- `PUT /api/comments/:id` (comments.js lines 113-158), entered after
`auth`: 400 when the comment content is absent, empty, or trims to empty
(`!comment || !comment.trim()`); 404 when the comment is absent; 403 when
the caller is neither the comment's author nor Admin; then
`findByIdAndUpdate` with `runValidators`, whose validation failure is not
classified by this handler's catch and surfaces as 500. -/
def updateComment (comments : List CommentRec) (actor : AuthedUser)
    (cid : Nat) (comment : Option String) :
    Except ErrResponse CommentRec × List CommentRec :=
  match comment with
  | none => (.error ⟨400, "Comment content is required", []⟩, comments)
  | some c =>
    if c = "" ∨ trimStr c = "" then
      (.error ⟨400, "Comment content is required", []⟩, comments)
    else
      match comments.find? (fun x => x.id == cid) with
      | none => (.error ⟨404, "Comment not found", []⟩, comments)
      | some ex =>
        if ownershipDenied ex.userID actor then
          (.error ⟨403, "Not authorized to update this comment", []⟩, comments)
        else if commentFieldErrors (trimStr c) = [] then
          let c2 := { ex with comment := trimStr c }
          (.ok c2, comments.map (fun x => if x.id == cid then c2 else x))
        else (.error ⟨500, "Error updating comment", []⟩, comments)

/-- `DELETE /api/comments/:id` (comments.js lines 161-192), entered after
`auth`: 404 when absent, 403 when the caller is neither the comment's author
nor Admin, otherwise remove the document. -/
def deleteComment (comments : List CommentRec) (actor : AuthedUser)
    (cid : Nat) : Except ErrResponse Unit × List CommentRec :=
  match comments.find? (fun x => x.id == cid) with
  | none => (.error ⟨404, "Comment not found", []⟩, comments)
  | some ex =>
    if ownershipDenied ex.userID actor then
      (.error ⟨403, "Not authorized to delete this comment", []⟩, comments)
    else
      (.ok (), comments.filter (fun x => ¬ x.id == cid))

/-- The HTTP status of a response: `some` of the error status on failure,
`none` on success. -/
def respStatus {α : Type} : Except ErrResponse α → Option Nat
  | .error e => some e.status
  | .ok _ => none

/-! ## Concrete fixtures used by the witnesses -/

/-- A concrete Editor user. -/
def alice : AuthedUser := ⟨7, "alice", "Editor"⟩

/-- A concrete plain (role User) user, distinct from `alice`. -/
def bob : AuthedUser := ⟨8, "bob", "User"⟩

/-- A concrete Editor user who owns neither `postEx` nor `commentEx`. -/
def carol : AuthedUser := ⟨9, "carol", "Editor"⟩

/-- A concrete stored post authored by `alice`. -/
def postEx : PostRec :=
  ⟨1, "Hello", "This is a test body.", 7, ["a", "b", "b"], "General", 0, 100⟩

/-- A concrete stored comment written by `alice`. -/
def commentEx : CommentRec := ⟨5, 1, 7, "nice"⟩

/-- A concrete token verifier: `tok7` decodes to user 7, `tok9` decodes to
user 9, any other token fails verification. -/
def verifyEx : String → Option Nat := fun t =>
  if t = "tok7" then some 7 else if t = "tok9" then some 9 else none

/-- A concrete user collection holding only user 7. -/
def usersEx : List UserRec := [⟨7, "alice", "Editor", "hashedpw"⟩]

/-- A 201-character title, violating the 200-character bound. -/
def longTitle : String := ⟨List.replicate 201 'a'⟩

/-! ## Helper lemmas -/

/-- The ownership guard of the update/delete handlers denies exactly when
the spec's `canModify` predicate is false. -/
theorem ownershipDenied_eq_not_canModify (o : Nat) (a : AuthedUser) :
    ownershipDenied o a = !(canModify a.id a.role o) := by
  unfold ownershipDenied canModify
  by_cases h1 : o = a.id
  · subst h1
    by_cases h2 : a.role = "Admin" <;> simp [h2]
  · have e1 : (o == a.id) = false := beq_eq_false_iff_ne.mpr h1
    have e2 : (a.id == o) = false := beq_eq_false_iff_ne.mpr (Ne.symm h1)
    by_cases h2 : a.role = "Admin" <;> simp [h2, e1, e2, bne]

/-- A `$inc` operation rewrites the target document in place: looking the
target up after the operation finds the same document with its view counter
raised. -/
theorem find_applyOp (posts : List PostRec) (pid n : Nat) :
    (applyOp posts (.incViews pid n)).find? (fun p => p.id == pid)
      = (posts.find? (fun p => p.id == pid)).map
          (fun p => { p with views := p.views + n }) := by
  induction posts with
  | nil => rfl
  | cons p ps ih =>
    by_cases h : p.id = pid
    · simp only [applyOp, List.map_cons] at *
      rw [List.find?_cons_of_pos _ (by simp [h]),
        List.find?_cons_of_pos _ (by simp [h])]
      simp [h]
    · simp only [applyOp, List.map_cons] at *
      rw [List.find?_cons_of_neg _ (by simp [h]),
        List.find?_cons_of_neg _ (by simp [h])]
      exact ih

/-- Applying a single atomic increment to the store raises the target
post's view counter by the increment amount. -/
theorem viewsOf_applyOp_inc (posts : List PostRec) (pid n : Nat) :
    viewsOf (applyOp posts (.incViews pid n)) pid
      = (viewsOf posts pid).map (fun v => v + n) := by
  unfold viewsOf
  rw [find_applyOp]
  cases posts.find? (fun p => p.id == pid) <;> rfl

/-- Applying `n` copies of the atomic increment-by-1 — the combined effect
of any serialization of `n` concurrent fetches — raises the view counter by
exactly `n`. -/
theorem viewsOf_applyOps_replicate (n : Nat) (posts : List PostRec)
    (pid : Nat) :
    viewsOf (applyOps posts (List.replicate n (.incViews pid 1))) pid
      = (viewsOf posts pid).map (fun v => v + n) := by
  induction n generalizing posts with
  | zero => cases h : viewsOf posts pid <;> simp [applyOps, List.replicate, h]
  | succ m ih =>
    rw [List.replicate_succ]
    have hstep :
        applyOps posts (StoreOp.incViews pid 1 :: List.replicate m (.incViews pid 1))
          = applyOps (applyOp posts (.incViews pid 1)) (List.replicate m (.incViews pid 1)) := rfl
    rw [hstep, ih, viewsOf_applyOp_inc]
    cases h : viewsOf posts pid with
    | none => simp
    | some v => simp [Nat.add_assoc, Nat.add_comm 1 m]

/-- `ceilDiv t l` is the ceiling of `t / l`: it is the least `k` with
`t ≤ k * l`. -/
theorem ceilDiv_le_iff (t l k : Nat) (hl : 0 < l) :
    ceilDiv t l ≤ k ↔ t ≤ k * l := by
  have h1 : ceilDiv t l ≤ k ↔ ¬ (k + 1 ≤ ceilDiv t l) := by omega
  have h2 : t ≤ k * l ↔ ¬ (k * l + 1 ≤ t) := by
    generalize k * l = x
    omega
  rw [h1, h2]
  apply not_congr
  unfold ceilDiv
  rw [Nat.le_div_iff_mul_le hl, Nat.succ_mul]
  generalize k * l = x
  omega

/-! ## Claim theorems -/

/-- Claim C2: for every role outside Admin and Editor, an authenticated
request to create, update, or delete a post fails with Forbidden (the
`editorAuth` 403 response, store unchanged), and `canAuthor` holds exactly
when the role is Admin or Editor. -/
theorem claim2_canAuthor_gates_post_mutations
    (posts : List PostRec) (actor : AuthedUser) (newId now pid : Nat)
    (title body : Option String) (tags : Option (List String))
    (category : Option String) (u : UpdateBody)
    (h1 : actor.role ≠ "Admin") (h2 : actor.role ≠ "Editor") :
    (∀ r, canAuthor r = true ↔ (r = "Admin" ∨ r = "Editor")) ∧
    createPost posts actor newId now title body tags category
      = (.error ⟨403, "Editor or Admin access required", []⟩, posts) ∧
    updatePost posts actor pid u
      = (.error ⟨403, "Editor or Admin access required", []⟩, posts) ∧
    deletePost posts actor pid
      = (.error ⟨403, "Editor or Admin access required", []⟩, posts) := by
  have he : editorAuthCheck actor
      = .error ⟨403, "Editor or Admin access required", []⟩ := by
    unfold editorAuthCheck
    rw [if_pos ⟨h1, h2⟩]
  refine ⟨fun r => by simp [canAuthor], ?_, ?_, ?_⟩
  · unfold createPost
    rw [he]
  · unfold updatePost
    rw [he]
  · unfold deletePost
    rw [he]

/-- Witness for claim C2 at a concrete plain user. -/
theorem claim2_witness :
    (bob.role ≠ "Admin" ∧ bob.role ≠ "Editor") ∧
    ((∀ r, canAuthor r = true ↔ (r = "Admin" ∨ r = "Editor")) ∧
     createPost [postEx] bob 2 200 (some "T") (some "a body here") none none
       = (.error ⟨403, "Editor or Admin access required", []⟩, [postEx]) ∧
     updatePost [postEx] bob 1 ⟨none, none, none, none⟩
       = (.error ⟨403, "Editor or Admin access required", []⟩, [postEx]) ∧
     deletePost [postEx] bob 1
       = (.error ⟨403, "Editor or Admin access required", []⟩, [postEx])) :=
  ⟨⟨by decide, by decide⟩,
   claim2_canAuthor_gates_post_mutations [postEx] bob 2 200 1 (some "T")
     (some "a body here") none none ⟨none, none, none, none⟩
     (by decide) (by decide)⟩

/-- Claim C4 counterexample: the verifier does not distinguish the
invalid-token failure from the unknown-user failure. The token `"bad"`
fails verification while `"tok9"` verifies to identity 9 which is absent
from storage, yet both requests receive the identical response. -/
theorem claim4_counterexample :
    verifyEx "bad" = none ∧
    verifyEx "tok9" = some 9 ∧
    usersEx.find? (fun u => u.id == 9) = none ∧
    authMiddleware verifyEx usersEx (some "bad")
      = authMiddleware verifyEx usersEx (some "tok9") := by
  refine ⟨by decide, by decide, by decide, rfl⟩

/-- Claim C4, amended: the verifier fails with 401 and a distinct message
when the token is absent; it fails with 401 and the same message
`Token is not valid` both when verification fails and when the decoded
identity is absent from storage (these two cases are not distinguished in
the response); on success it attaches the stored user's identity, username
and role, the password excluded (`AuthedUser` carries no password field). -/
theorem claim4_amended_auth_contract
    (verify : String → Option Nat) (users : List UserRec)
    (t : String) (uid : Nat) (u : UserRec) :
    (authMiddleware verify users none
      = .error ⟨401, "No token provided, authorization denied", []⟩) ∧
    (verify t = none →
      authMiddleware verify users (some t)
        = .error ⟨401, "Token is not valid", []⟩) ∧
    (verify t = some uid → users.find? (fun w => w.id == uid) = none →
      authMiddleware verify users (some t)
        = .error ⟨401, "Token is not valid", []⟩) ∧
    (verify t = some uid → users.find? (fun w => w.id == uid) = some u →
      authMiddleware verify users (some t) = .ok ⟨u.id, u.username, u.role⟩) := by
  have hred : authMiddleware verify users (some t) =
      (match verify t with
       | none => .error ⟨401, "Token is not valid", []⟩
       | some uid =>
         match users.find? (fun w => w.id == uid) with
         | none => .error ⟨401, "Token is not valid", []⟩
         | some u => .ok ⟨u.id, u.username, u.role⟩) := rfl
  refine ⟨rfl, ?_, ?_, ?_⟩
  · intro h
    rw [hred, h]
  · intro h1 h2
    rw [hred, h1]
    show (match users.find? (fun w => w.id == uid) with
          | none => (.error ⟨401, "Token is not valid", []⟩ :
              Except ErrResponse AuthedUser)
          | some u => .ok ⟨u.id, u.username, u.role⟩)
        = .error ⟨401, "Token is not valid", []⟩
    rw [h2]
  · intro h1 h2
    rw [hred, h1]
    show (match users.find? (fun w => w.id == uid) with
          | none => (.error ⟨401, "Token is not valid", []⟩ :
              Except ErrResponse AuthedUser)
          | some u => .ok ⟨u.id, u.username, u.role⟩)
        = .ok ⟨u.id, u.username, u.role⟩
    rw [h2]

/-- Witness for the amended claim C4, exercising all four cases at concrete
tokens against the concrete verifier and user store. -/
theorem claim4_amended_witness :
    verifyEx "bad" = none ∧
    verifyEx "tok9" = some 9 ∧
    usersEx.find? (fun w => w.id == 9) = none ∧
    verifyEx "tok7" = some 7 ∧
    usersEx.find? (fun w => w.id == 7) = some ⟨7, "alice", "Editor", "hashedpw"⟩ ∧
    authMiddleware verifyEx usersEx (some "bad")
      = .error ⟨401, "Token is not valid", []⟩ ∧
    authMiddleware verifyEx usersEx (some "tok9")
      = .error ⟨401, "Token is not valid", []⟩ ∧
    authMiddleware verifyEx usersEx (some "tok7") = .ok ⟨7, "alice", "Editor"⟩ :=
  ⟨by decide, by decide, by decide, by decide, by decide,
   (claim4_amended_auth_contract verifyEx usersEx "bad" 0
     ⟨0, "", "", ""⟩).2.1 (by decide),
   (claim4_amended_auth_contract verifyEx usersEx "tok9" 9
     ⟨0, "", "", ""⟩).2.2.1 (by decide) (by decide),
   (claim4_amended_auth_contract verifyEx usersEx "tok7" 7
     ⟨7, "alice", "Editor", "hashedpw"⟩).2.2.2 (by decide) (by decide)⟩

/-- Claim C5: creating a comment whose referenced post identifier does not
name an existing post fails with NotFound and leaves the comment store
unchanged. -/
theorem claim5_comment_on_missing_post_not_found
    (posts : List PostRec) (comments : List CommentRec) (actor : AuthedUser)
    (newId pid : Nat) (c : String)
    (hnp : posts.find? (fun p => p.id == pid) = none) (hc : c ≠ "") :
    createComment posts comments actor newId (some pid) (some c)
      = (.error ⟨404, "Post not found", []⟩, comments) := by
  simp only [createComment]
  rw [if_neg hc, hnp]

/-- Witness for claim C5 at a concrete missing post identifier. -/
theorem claim5_witness :
    (([] : List PostRec).find? (fun p => p.id == 3) = none ∧ "hello" ≠ "") ∧
    createComment [] [commentEx] bob 6 (some 3) (some "hello")
      = (.error ⟨404, "Post not found", []⟩, [commentEx]) :=
  ⟨⟨by decide, by decide⟩,
   claim5_comment_on_missing_post_not_found [] [commentEx] bob 6 3 "hello"
     (by decide) (by decide)⟩

/-- Claim C3: a successful single-post fetch issues exactly one store
operation, the atomic increment-by-1 of the post's view counter (never a
read-then-write overwrite), the store afterwards holds the counter raised
by exactly 1, and any serialization of `n` such fetches raises it by
exactly `n`. -/
theorem claim3_fetch_increments_views_atomically
    (posts : List PostRec) (pid : Nat) (p : PostRec)
    (hp : posts.find? (fun q => q.id == pid) = some p) :
    getPostOps posts pid = [.incViews pid 1] ∧
    viewsOf (getPost posts pid).2 pid = some (p.views + 1) ∧
    (∀ n, viewsOf (applyOps posts (List.replicate n (.incViews pid 1))) pid
      = some (p.views + n)) := by
  have hops : getPostOps posts pid = [.incViews pid 1] := by
    unfold getPostOps
    rw [hp]
  refine ⟨hops, ?_, ?_⟩
  · have hsnd : (getPost posts pid).2 = applyOp posts (.incViews pid 1) := by
      unfold getPost
      rw [hp, hops]
      rfl
    rw [hsnd, viewsOf_applyOp_inc]
    simp [viewsOf, hp]
  · intro n
    rw [viewsOf_applyOps_replicate]
    simp [viewsOf, hp]

/-- Witness for claim C3 at the concrete store `[postEx]`. -/
theorem claim3_witness :
    ([postEx].find? (fun q => q.id == 1) = some postEx) ∧
    (getPostOps [postEx] 1 = [.incViews 1 1] ∧
     viewsOf (getPost [postEx] 1).2 1 = some (postEx.views + 1) ∧
     (∀ n, viewsOf (applyOps [postEx] (List.replicate n (.incViews 1 1))) 1
       = some (postEx.views + n))) :=
  ⟨by decide, claim3_fetch_increments_views_atomically [postEx] 1 postEx (by decide)⟩

/-- Claim C10: the response of a successful single-post fetch carries the
post document as stored before the fetch's own increment — its `views`
field is the pre-request count — while the store afterwards holds that
count plus one. -/
theorem claim10_response_views_pre_increment
    (posts : List PostRec) (pid : Nat) (p : PostRec)
    (hp : posts.find? (fun q => q.id == pid) = some p) :
    (getPost posts pid).1 = .ok p ∧
    viewsOf posts pid = some p.views ∧
    viewsOf (getPost posts pid).2 pid = some (p.views + 1) := by
  have hfst : (getPost posts pid).1 = .ok p := by
    unfold getPost
    rw [hp]
  have hsnd : (getPost posts pid).2 = applyOp posts (.incViews pid 1) := by
    unfold getPost getPostOps
    rw [hp]
    rfl
  refine ⟨hfst, by simp [viewsOf, hp], ?_⟩
  rw [hsnd, viewsOf_applyOp_inc]
  simp [viewsOf, hp]

/-- Witness for claim C10 at the concrete store `[postEx]`. -/
theorem claim10_witness :
    ([postEx].find? (fun q => q.id == 1) = some postEx) ∧
    ((getPost [postEx] 1).1 = .ok postEx ∧
     viewsOf [postEx] 1 = some postEx.views ∧
     viewsOf (getPost [postEx] 1).2 1 = some (postEx.views + 1)) :=
  ⟨by decide, claim10_response_views_pre_increment [postEx] 1 postEx (by decide)⟩

/-- Claim C1: every update or delete of an existing post or comment by an
authenticated user who is neither the resource's owner nor Admin fails with
Forbidden (HTTP 403), and `canModify` holds exactly when the actor's role
is Admin or the actor's identity equals the resource owner's identity. The
comment-update request is assumed to carry non-empty content, which the
handler checks before ownership. -/
theorem claim1_non_owner_non_admin_forbidden
    (posts : List PostRec) (comments : List CommentRec) (actor : AuthedUser)
    (pid cid : Nat) (p : PostRec) (cm : CommentRec) (u : UpdateBody)
    (c : String)
    (hp : posts.find? (fun q => q.id == pid) = some p)
    (hc : comments.find? (fun x => x.id == cid) = some cm)
    (hpo : p.author ≠ actor.id) (hco : cm.userID ≠ actor.id)
    (hr : actor.role ≠ "Admin") (hc1 : c ≠ "") (hc2 : trimStr c ≠ "") :
    respStatus (updatePost posts actor pid u).1 = some 403 ∧
    respStatus (deletePost posts actor pid).1 = some 403 ∧
    respStatus (updateComment comments actor cid (some c)).1 = some 403 ∧
    respStatus (deleteComment comments actor cid).1 = some 403 ∧
    (∀ a r o, canModify a r o = true ↔ (r = "Admin" ∨ a = o)) := by
  have hd : ownershipDenied p.author actor = true := by
    simp only [ownershipDenied, Bool.and_eq_true, bne_iff_ne]
    exact ⟨hpo, hr⟩
  have hdc : ownershipDenied cm.userID actor = true := by
    simp only [ownershipDenied, Bool.and_eq_true, bne_iff_ne]
    exact ⟨hco, hr⟩
  have hpost : ∀ r2 : Except ErrResponse Unit,
      (∀ e, r2 = .error e → e.status = 403) → True := fun _ _ => trivial
  refine ⟨?_, ?_, ?_, ?_, fun a r o => by simp [canModify]⟩
  · by_cases he : actor.role = "Editor"
    · have hok : editorAuthCheck actor = .ok () := by
        unfold editorAuthCheck
        rw [if_neg (fun hcon => hcon.2 he)]
      simp [updatePost, updatePostHandler, hok, hp, hd, respStatus]
    · have herr : editorAuthCheck actor
          = .error ⟨403, "Editor or Admin access required", []⟩ := by
        unfold editorAuthCheck
        rw [if_pos ⟨hr, he⟩]
      simp [updatePost, herr, respStatus]
  · by_cases he : actor.role = "Editor"
    · have hok : editorAuthCheck actor = .ok () := by
        unfold editorAuthCheck
        rw [if_neg (fun hcon => hcon.2 he)]
      simp [deletePost, deletePostHandler, hok, hp, hd, respStatus]
    · have herr : editorAuthCheck actor
          = .error ⟨403, "Editor or Admin access required", []⟩ := by
        unfold editorAuthCheck
        rw [if_pos ⟨hr, he⟩]
      simp [deletePost, herr, respStatus]
  · simp [updateComment, hc1, hc2, hc, hdc, respStatus]
  · simp [deleteComment, hc, hdc, respStatus]

/-- Witness for claim C1: the Editor `carol` owns neither `postEx` nor
`commentEx` and is not Admin. -/
theorem claim1_witness :
    ([postEx].find? (fun q => q.id == 1) = some postEx ∧
     [commentEx].find? (fun x => x.id == 5) = some commentEx ∧
     postEx.author ≠ carol.id ∧ commentEx.userID ≠ carol.id ∧
     carol.role ≠ "Admin" ∧ "hello" ≠ "" ∧ trimStr "hello" ≠ "") ∧
    (respStatus (updatePost [postEx] carol 1 ⟨none, none, none, none⟩).1
        = some 403 ∧
     respStatus (deletePost [postEx] carol 1).1 = some 403 ∧
     respStatus (updateComment [commentEx] carol 5 (some "hello")).1
        = some 403 ∧
     respStatus (deleteComment [commentEx] carol 5).1 = some 403 ∧
     (∀ a r o, canModify a r o = true ↔ (r = "Admin" ∨ a = o))) :=
  ⟨⟨by decide, by decide, by decide, by decide, by decide, by decide,
    by decide⟩,
   claim1_non_owner_non_admin_forbidden [postEx] [commentEx] carol 1 5
     postEx commentEx ⟨none, none, none, none⟩ "hello" (by decide) (by decide)
     (by decide) (by decide) (by decide) (by decide) (by decide)⟩

/-- Claim C6: a post update that violates the title maxlength and the body
minlength at once fails with ValidationError (HTTP 400) whose error list
contains the message of each violated field, not only the first. -/
theorem claim6_validation_lists_every_field
    (posts : List PostRec) (actor : AuthedUser) (pid : Nat) (p : PostRec)
    (u : UpdateBody) (t b : String)
    (hp : posts.find? (fun q => q.id == pid) = some p)
    (hrole : canAuthor actor.role = true)
    (hmod : canModify actor.id actor.role p.author = true)
    (ht : u.title = some t) (ht200 : 200 < (trimStr t).length)
    (hb : u.body = some b) (hbne : b ≠ "") (hb10 : b.length < 10) :
    ∃ e, (updatePost posts actor pid u).1 = .error e ∧ e.status = 400 ∧
      e.message = "Validation error" ∧
      "Title cannot exceed 200 characters" ∈ e.errors ∧
      "Body must be at least 10 characters long" ∈ e.errors := by
  have hok : editorAuthCheck actor = .ok () := by
    unfold editorAuthCheck
    rcases (by simpa [canAuthor] using hrole :
        actor.role = "Admin" ∨ actor.role = "Editor") with h | h
    · rw [if_neg (fun hcon => hcon.1 h)]
    · rw [if_neg (fun hcon => hcon.2 h)]
  have hd : ownershipDenied p.author actor = false := by
    rw [ownershipDenied_eq_not_canModify, hmod]
    rfl
  have htne : trimStr t ≠ "" := by
    intro h
    rw [h] at ht200
    exact absurd ht200 (by decide)
  have hterr : titleFieldErrors (trimStr t)
      = ["Title cannot exceed 200 characters"] := by
    unfold titleFieldErrors
    rw [if_neg htne, if_pos ht200]
  have hberr : bodyFieldErrors b
      = ["Body must be at least 10 characters long"] := by
    unfold bodyFieldErrors
    rw [if_neg hbne, if_pos hb10]
  have hupd : postUpdateErrors u
      = titleFieldErrors (trimStr t) ++ bodyFieldErrors b
        ++ (match u.tags with
            | none => []
            | some ts => tagsFieldErrors ts)
        ++ (match u.category with
            | none => []
            | some c => categoryFieldErrors c) := by
    unfold postUpdateErrors
    rw [ht, hb]
  have hmem1 : "Title cannot exceed 200 characters" ∈ postUpdateErrors u := by
    rw [hupd, hterr]
    simp
  have hmem2 : "Body must be at least 10 characters long"
      ∈ postUpdateErrors u := by
    rw [hupd, hberr]
    simp
  have hne : postUpdateErrors u ≠ [] := List.ne_nil_of_mem hmem1
  refine ⟨⟨400, "Validation error", postUpdateErrors u⟩, ?_, rfl, rfl,
    hmem1, hmem2⟩
  simp [updatePost, updatePostHandler, hok, hp, hd, hne]

/-- Witness for claim C6: `alice` updates her own post with a 201-character
title and a 5-character body; both field messages appear in the error
list. -/
theorem claim6_witness :
    ([postEx].find? (fun q => q.id == 1) = some postEx ∧
     canAuthor alice.role = true ∧
     canModify alice.id alice.role postEx.author = true ∧
     200 < (trimStr longTitle).length ∧ "short" ≠ "" ∧ "short".length < 10) ∧
    (∃ e, (updatePost [postEx] alice 1
        ⟨some longTitle, some "short", none, none⟩).1 = .error e ∧
      e.status = 400 ∧ e.message = "Validation error" ∧
      "Title cannot exceed 200 characters" ∈ e.errors ∧
      "Body must be at least 10 characters long" ∈ e.errors) :=
  ⟨⟨by decide, by decide, by decide, by decide, by decide, by decide⟩,
   claim6_validation_lists_every_field [postEx] alice 1 postEx
     ⟨some longTitle, some "short", none, none⟩ longTitle "short" (by decide)
     (by decide) (by decide) rfl (by decide) rfl (by decide) (by decide)⟩

/-- Claim C7: a successful post update only ever replaces the fields title,
body, tags and category; each field absent from the update document keeps
its stored value, and the author, view counter, creation timestamp and
identifier are never changed. -/
theorem claim7_update_frame
    (posts posts2 : List PostRec) (actor : AuthedUser) (pid : Nat)
    (u : UpdateBody) (p p2 : PostRec)
    (hp : posts.find? (fun q => q.id == pid) = some p)
    (hres : updatePost posts actor pid u = (.ok p2, posts2)) :
    p2.id = p.id ∧ p2.author = p.author ∧ p2.views = p.views ∧
    p2.createdAt = p.createdAt ∧
    (u.title = none → p2.title = p.title) ∧
    (u.body = none → p2.body = p.body) ∧
    (u.tags = none → p2.tags = p.tags) ∧
    (u.category = none → p2.category = p.category) := by
  have key : (updatePost posts actor pid u).1 = .ok p2 → p2 = applyUpdate p u := by
    unfold updatePost
    cases he : editorAuthCheck actor with
    | error e => simp
    | ok v =>
      simp only [updatePostHandler, hp]
      by_cases hd : ownershipDenied p.author actor = true
      · simp [hd]
      · by_cases hv : postUpdateErrors u = []
        · simp only [hd, hv, Bool.false_eq_true, if_false, if_true,
            reduceCtorEq]
          intro h
          exact ((Except.ok.injEq _ _).mp h).symm
        · simp [hd, hv]
  have hp2 : p2 = applyUpdate p u := key (by rw [hres])
  subst hp2
  refine ⟨rfl, rfl, rfl, rfl, ?_, ?_, ?_, ?_⟩ <;>
    (intro h; simp [applyUpdate, h])

/-- Witness for claim C7: `alice` updates her post's body only; every other
field keeps its stored value. -/
theorem claim7_witness :
    ([postEx].find? (fun q => q.id == 1) = some postEx ∧
     updatePost [postEx] alice 1 ⟨none, some "replacement body", none, none⟩
       = (.ok ⟨1, "Hello", "replacement body", 7, ["a", "b", "b"],
           "General", 0, 100⟩,
          [⟨1, "Hello", "replacement body", 7, ["a", "b", "b"],
            "General", 0, 100⟩])) ∧
    ((⟨1, "Hello", "replacement body", 7, ["a", "b", "b"], "General", 0,
        100⟩ : PostRec).id = postEx.id ∧
     (⟨1, "Hello", "replacement body", 7, ["a", "b", "b"], "General", 0,
        100⟩ : PostRec).author = postEx.author ∧
     (⟨1, "Hello", "replacement body", 7, ["a", "b", "b"], "General", 0,
        100⟩ : PostRec).views = postEx.views ∧
     (⟨1, "Hello", "replacement body", 7, ["a", "b", "b"], "General", 0,
        100⟩ : PostRec).createdAt = postEx.createdAt ∧
     ((⟨none, some "replacement body", none, none⟩ : UpdateBody).title = none
       → (⟨1, "Hello", "replacement body", 7, ["a", "b", "b"], "General",
            0, 100⟩ : PostRec).title = postEx.title) ∧
     ((⟨none, some "replacement body", none, none⟩ : UpdateBody).body = none
       → (⟨1, "Hello", "replacement body", 7, ["a", "b", "b"], "General",
            0, 100⟩ : PostRec).body = postEx.body) ∧
     ((⟨none, some "replacement body", none, none⟩ : UpdateBody).tags = none
       → (⟨1, "Hello", "replacement body", 7, ["a", "b", "b"], "General",
            0, 100⟩ : PostRec).tags = postEx.tags) ∧
     ((⟨none, some "replacement body", none, none⟩ : UpdateBody).category
        = none
       → (⟨1, "Hello", "replacement body", 7, ["a", "b", "b"], "General",
            0, 100⟩ : PostRec).category = postEx.category)) :=
  ⟨⟨by decide, rfl⟩,
   claim7_update_frame [postEx]
     [⟨1, "Hello", "replacement body", 7, ["a", "b", "b"], "General", 0,
       100⟩]
     alice 1 ⟨none, some "replacement body", none, none⟩ postEx
     ⟨1, "Hello", "replacement body", 7, ["a", "b", "b"], "General", 0, 100⟩
     (by decide) rfl⟩

/-- Claim C8: the pagination metadata of every post-list response reports
the requested page as `currentPage`, the number of posts matching the
filter as `totalPosts`, the ceiling of `totalPosts / limit` as `totalPages`
(characterized as the least `k` with `totalPosts ≤ k * limit`),
`hasNextPage` exactly when the requested page is below `totalPages`, and
`hasPrevPage` exactly when the requested page exceeds 1. -/
theorem claim8_pagination_metadata
    (textMatch : String → PostRec → Bool) (posts : List PostRec)
    (q : ListQuery) (hl : 0 < q.limit) :
    (listPosts textMatch posts q).2.currentPage = q.page ∧
    (listPosts textMatch posts q).2.totalPosts
      = (posts.filter (matchesQuery textMatch q)).length ∧
    (∀ k, (listPosts textMatch posts q).2.totalPages ≤ k
      ↔ (listPosts textMatch posts q).2.totalPosts ≤ k * q.limit) ∧
    ((listPosts textMatch posts q).2.hasNextPage = true
      ↔ q.page < (listPosts textMatch posts q).2.totalPages) ∧
    ((listPosts textMatch posts q).2.hasPrevPage = true ↔ 1 < q.page) := by
  have h2 : (listPosts textMatch posts q).2
      = ⟨q.page,
         ceilDiv (posts.filter (matchesQuery textMatch q)).length q.limit,
         (posts.filter (matchesQuery textMatch q)).length,
         decide (q.page <
           ceilDiv (posts.filter (matchesQuery textMatch q)).length q.limit),
         decide (1 < q.page)⟩ := rfl
  rw [h2]
  refine ⟨rfl, rfl, ?_, by simp, by simp⟩
  intro k
  exact ceilDiv_le_iff _ _ k hl

/-- Witness for claim C8 at a concrete store and query (page 2, limit 1,
no filters). -/
theorem claim8_witness :
    0 < (⟨2, 1, none, none, none⟩ : ListQuery).limit ∧
    ((listPosts (fun _ _ => false) [postEx]
        ⟨2, 1, none, none, none⟩).2.currentPage = 2 ∧
     (listPosts (fun _ _ => false) [postEx]
        ⟨2, 1, none, none, none⟩).2.totalPosts
       = ([postEx].filter (matchesQuery (fun _ _ => false)
            ⟨2, 1, none, none, none⟩)).length ∧
     (∀ k, (listPosts (fun _ _ => false) [postEx]
          ⟨2, 1, none, none, none⟩).2.totalPages ≤ k
       ↔ (listPosts (fun _ _ => false) [postEx]
            ⟨2, 1, none, none, none⟩).2.totalPosts
          ≤ k * (⟨2, 1, none, none, none⟩ : ListQuery).limit) ∧
     ((listPosts (fun _ _ => false) [postEx]
          ⟨2, 1, none, none, none⟩).2.hasNextPage = true
       ↔ 2 < (listPosts (fun _ _ => false) [postEx]
            ⟨2, 1, none, none, none⟩).2.totalPages) ∧
     ((listPosts (fun _ _ => false) [postEx]
          ⟨2, 1, none, none, none⟩).2.hasPrevPage = true ↔ 1 < 2)) :=
  ⟨by decide,
   claim8_pagination_metadata (fun _ _ => false) [postEx]
     ⟨2, 1, none, none, none⟩ (by decide)⟩

/-- Claim C9: creating a post with a list of tag strings and then fetching
it by its identifier returns exactly the submitted tags with each tag
trimmed of surrounding whitespace, preserving insertion order and
duplicates. -/
theorem claim9_tags_roundtrip
    (posts : List PostRec) (actor : AuthedUser) (newId now : Nat)
    (title body : String) (ts : List String) (category : Option String)
    (hrole : canAuthor actor.role = true)
    (hfresh : ∀ p ∈ posts, p.id ≠ newId)
    (hv : postCreateErrors (some title) (some body) ts
        (resolvedCategory category) = []) :
    ∃ p, (getPost (createPost posts actor newId now (some title) (some body)
        (some ts) category).2 newId).1 = .ok p ∧
      p.tags = ts.map trimStr := by
  have hok : editorAuthCheck actor = .ok () := by
    unfold editorAuthCheck
    rcases (by simpa [canAuthor] using hrole :
        actor.role = "Admin" ∨ actor.role = "Editor") with h | h
    · rw [if_neg (fun hcon => hcon.1 h)]
    · rw [if_neg (fun hcon => hcon.2 h)]
  have hstore : (createPost posts actor newId now (some title) (some body)
        (some ts) category).2
      = posts ++ [⟨newId, trimStr title, body, actor.id, ts.map trimStr,
          resolvedCategory category, 0, now⟩] := by
    simp [createPost, hok, createPostHandler, hv]
  have hnone : posts.find? (fun p => p.id == newId) = none :=
    List.find?_eq_none.mpr (fun x hx => by simp [hfresh x hx])
  have hfind : (posts ++ [(⟨newId, trimStr title, body, actor.id,
        ts.map trimStr, resolvedCategory category, 0, now⟩ :
        PostRec)]).find? (fun p => p.id == newId)
      = some ⟨newId, trimStr title, body, actor.id, ts.map trimStr,
          resolvedCategory category, 0, now⟩ := by
    rw [List.find?_append, hnone]
    simp
  refine ⟨⟨newId, trimStr title, body, actor.id, ts.map trimStr,
    resolvedCategory category, 0, now⟩, ?_, rfl⟩
  rw [hstore]
  simp [getPost, hfind]

/-- Witness for claim C9: `alice` creates a post with tags
`["a ", " b", "b"]`; the fetched post carries tags `["a", "b", "b"]` — each
trimmed, order and the duplicate preserved. -/
theorem claim9_witness :
    (canAuthor alice.role = true ∧
     (∀ p ∈ [postEx], p.id ≠ 2) ∧
     postCreateErrors (some "Hello") (some "This is a test body.")
       ["a ", " b", "b"] (resolvedCategory none) = []) ∧
    (∃ p, (getPost (createPost [postEx] alice 2 200 (some "Hello")
        (some "This is a test body.") (some ["a ", " b", "b"]) none).2
        2).1 = .ok p ∧
      p.tags = ["a ", " b", "b"].map trimStr) :=
  ⟨⟨by decide, by decide, by decide⟩,
   claim9_tags_roundtrip [postEx] alice 2 200 "Hello"
     "This is a test body." ["a ", " b", "b"] none (by decide) (by decide)
     (by decide)⟩

end ModernBlog
